import Mathlib

/-!
Verification of the Lektr browser extension's Kindle scraping engine.

The definitions below are a shallow embedding of the TypeScript source:

* `decodeHtmlEntities`, `jsTrim`, `collapseWs` — `KindleScraper.decodeHtmlEntities`
  (lib/kindle-scraper.ts): sequential entity replacement, whitespace-run
  collapsing and end trimming.
* `parseLocationHtml`, `parseLocationCS`, `parseColor` — the location/color
  header regexes of `KindleScraper.extractHighlightsFromHtml` and of
  `extractCurrentHighlights` (entrypoints/kindle.content.ts), implemented with
  the JavaScript leftmost-match semantics of `String.prototype.match`.
* `extractHighlightsFromHtml` — the combine loop of
  `KindleScraper.extractHighlightsFromHtml`, taking the three regex-scanned
  marker-content lists as input.
* `scrollIterations` — the lazy-load scroll loop of
  `scrollSidebarToLoadAllBooks` (kindle.content.ts), as a function of the
  per-iteration observed book counts.
* `syncAllBooks` — the per-book click/settle/extract loop of the content
  script, instrumented with an event trace.
* `checkLoginStatus`, `scrapeAllBooksViaFetch` — the login check and the
  per-ASIN fetch strategy of `KindleScraper`.
* `syncKindleLibrary` — the background orchestrator (entrypoints/background),
  instrumented with the `isSyncing` flag writes and strategy/submission trace.

Network and DOM effects are parameters: each model takes an environment
recording what the outside world returns at every suspension point, and
returns the value the source computes from those answers.
-/

namespace Lektr

/-! ## JavaScript-style character classes and string helpers -/

/-- The JavaScript whitespace class matched by the source's regular
expressions (the characters of the JS class matched by a backslash-s, for the
code points that occur in the scraped markup): space, tab, line feed,
vertical tab, form feed, carriage return, and the no-break space U+00A0. -/
def isJsWs (c : Char) : Bool :=
  c = ' ' || c = '\t' || c = '\n' || c.toNat = 11 || c.toNat = 12 || c = '\r' || c.toNat = 160

/-- JS digit class (0-9 only). -/
def isDigitCh (c : Char) : Bool :=
  '0' ≤ c && c ≤ '9'

/-- The character class of the content-script location capture: digits and
commas. -/
def isDigitComma (c : Char) : Bool :=
  isDigitCh c || c = ','

/-- JS word-character class: ASCII letters, digits, underscore. -/
def isWordCh (c : Char) : Bool :=
  ('a' ≤ c && c ≤ 'z') || ('A' ≤ c && c ≤ 'Z') || isDigitCh c || c = '_'

/-- Trim JS whitespace from both ends of a character list. -/
def trimChars (l : List Char) : List Char :=
  ((l.dropWhile isJsWs).reverse.dropWhile isJsWs).reverse

/-- String wrapper for `trimChars`, modelling `String.prototype.trim`. -/
def jsTrim (s : String) : String :=
  (trimChars s.data).asString

/-- Auxiliary collapser: `inRun` is true while inside a whitespace run whose
single replacement space was already emitted. -/
def collapseWsAux : Bool → List Char → List Char
  | _, [] => []
  | inRun, c :: rest =>
    if isJsWs c then
      if inRun then collapseWsAux true rest
      else ' ' :: collapseWsAux true rest
    else c :: collapseWsAux false rest

/-- Collapse every run of JS whitespace to a single plain space: the
source's `.replace(/\s+/g, ' ')` step. -/
def collapseWs (l : List Char) : List Char :=
  collapseWsAux false l

/-- Does the list start with the given pattern? -/
def startsWithChars : List Char → List Char → Bool
  | [], _ => true
  | _ :: _, [] => false
  | p :: ps, c :: cs => p = c && startsWithChars ps cs

/-- Fuel-driven global replacement with JS semantics: scan left to right,
replace each non-overlapping occurrence, never rescan the replacement. -/
def replaceAllAux (pat rep : List Char) : Nat → List Char → List Char
  | 0, l => l
  | _ + 1, [] => []
  | fuel + 1, c :: rest =>
    if pat ≠ [] && startsWithChars pat (c :: rest) then
      rep ++ replaceAllAux pat rep fuel ((c :: rest).drop pat.length)
    else c :: replaceAllAux pat rep fuel rest

/-- `String.prototype.replace` with a global literal pattern, on char lists. -/
def replaceAll (pat rep l : List Char) : List Char :=
  replaceAllAux pat rep l.length l

/-- The apostrophe character, written by code point. -/
def apos : Char := Char.ofNat 39

/-- The eight sequential entity replacements of
`KindleScraper.decodeHtmlEntities`, in source order. -/
def entityReplaced (text : String) : List Char :=
  let l := text.data
  let l := replaceAll ("&amp" ++ ";").data "&".data l
  let l := replaceAll ("&lt" ++ ";").data "<".data l
  let l := replaceAll ("&gt" ++ ";").data ">".data l
  let l := replaceAll ("&quot" ++ ";").data "\"".data l
  let l := replaceAll ("&#39" ++ ";").data [apos] l
  let l := replaceAll ("&#x27" ++ ";").data [apos] l
  let l := replaceAll ("&nbsp" ++ ";").data " ".data l
  let l := replaceAll ("&#x2F" ++ ";").data "/".data l
  l

/-- `KindleScraper.decodeHtmlEntities`: entity replacement, then
whitespace-run collapsing, then trimming. -/
def decodeHtmlEntities (text : String) : String :=
  (trimChars (collapseWs (entityReplaced text))).asString

/-! ## Header pattern matching (location and color) -/

/-- Consume a case-insensitive literal; return the rest of the input on
success. -/
def dropLiteralCI : List Char → List Char → Option (List Char)
  | [], l => some l
  | _ :: _, [] => none
  | p :: ps, c :: cs => if p.toLower = c.toLower then dropLiteralCI ps cs else none

/-- Attempt the location pattern at the current position: the literal
(`Location:` or `Page:`), then JS whitespace, then a nonempty group of `cls`
characters, then — when `allowRange` — an optional dash followed by a second
nonempty group.  Mirrors the regexes of the source, which never need
backtracking because the whitespace, group and literal classes are
disjoint. -/
def locAttempt (cls : Char → Bool) (allowRange : Bool) (lit l : List Char) :
    Option String :=
  match dropLiteralCI lit l with
  | none => none
  | some rest =>
    let rest2 := rest.dropWhile isJsWs
    let g1 := rest2.takeWhile cls
    if g1 = [] then none
    else
      let rest3 := rest2.drop g1.length
      if allowRange then
        match rest3 with
        | '-' :: rest4 =>
          let g2 := rest4.takeWhile cls
          if g2 = [] then some g1.asString
          else some (g1 ++ '-' :: g2).asString
        | _ => some g1.asString
      else some g1.asString

/-- Leftmost-match search: try the pattern at every position from the left,
as an unanchored JS regex does. -/
def locSearch (cls : Char → Bool) (allowRange : Bool) (lit : List Char) :
    List Char → Option String
  | [] => locAttempt cls allowRange lit []
  | c :: rest =>
    match locAttempt cls allowRange lit (c :: rest) with
    | some v => some v
    | none => locSearch cls allowRange lit rest

/-- The location parse of `KindleScraper.extractHighlightsFromHtml`:
`/Location:\s*(\d+(?:-\d+)?)/i` — digits only, no commas, no page
fallback. -/
def parseLocationHtml (header : String) : Option String :=
  locSearch isDigitCh true "Location:".data header.data

/-- The location parse of `extractCurrentHighlights` in the content script:
`/Location:[\s ]*([\d,]+(?:-[\d,]+)?)/i` with fallback
`/Page:[\s ]*([\d,]+)/i`. -/
def parseLocationCS (header : String) : Option String :=
  match locSearch isDigitComma true "Location:".data header.data with
  | some v => some v
  | none => locSearch isDigitComma false "Page:".data header.data

/-- The color parse shared by both extractors: `/^(\w+)\s+highlight/i`,
anchored at the start of the header. -/
def parseColor (header : String) : Option String :=
  let l := header.data
  let w := l.takeWhile isWordCh
  if w = [] then none
  else
    let r1 := l.drop w.length
    let sp := r1.takeWhile isJsWs
    if sp = [] then none
    else
      match dropLiteralCI "highlight".data (r1.drop sp.length) with
      | some _ => some w.asString
      | none => none

/-! ## Field Extractor: the combine loop -/

/-- One extracted highlight record, as in `lib/kindle-scraper.ts`. -/
structure KindleHighlight where
  bookTitle : String
  bookAuthor : Option String
  content : String
  note : Option String
  location : Option String
  color : Option String
deriving Repr, DecidableEq

/-- JS `x || null` on a string: the empty string is falsy. -/
def emptyToNull (s : String) : Option String :=
  if s = "" then none else some s

/-- The combine stage of `KindleScraper.extractHighlightsFromHtml`.  The
regex scans of the page are abstracted as the three lists of raw marker
contents, in document order: the bodies of the `id="highlight"` spans, of the
`id="annotationHighlightHeader"` spans, and of the `id="note"` spans.  Each
raw body is trimmed and entity-decoded as in the source; highlight bodies
that decode to the empty string are discarded; the loop then pairs the `i`-th
surviving highlight text with `headers[i] || ''` and `notes[i] || null`. -/
def extractHighlightsFromHtml (bookTitle : String) (bookAuthor : Option String)
    (rawHighlights rawHeaders rawNotes : List String) : List KindleHighlight :=
  let highlightTexts :=
    (rawHighlights.map (fun s => decodeHtmlEntities (jsTrim s))).filter (fun s => s ≠ "")
  let headers := rawHeaders.map (fun s => decodeHtmlEntities (jsTrim s))
  let notes := rawNotes.map (fun s => decodeHtmlEntities (jsTrim s))
  (List.range highlightTexts.length).map (fun i =>
    let header := headers.getD i ""
    { bookTitle := bookTitle
      bookAuthor := bookAuthor
      content := highlightTexts.getD i ""
      note := emptyToNull (notes.getD i "")
      location := parseLocationHtml header
      color := parseColor header })

/-! ## Book Enumerator: the sidebar scroll loop -/

/-- One run of the scroll loop of `scrollSidebarToLoadAllBooks`, as a function
of the sequence of book counts the page reports at each iteration.
`counts i` is `document.querySelectorAll(...kp-notebook-library-each-book).length`
observed at iteration `i`.  Arguments: remaining fuel, current iteration
index, `previousBookCount`, `sameCountIterations`.  Returns the number of
loop iterations begun. -/
def scrollLoopAux (counts : Nat → Nat) : Nat → Nat → Nat → Nat → Nat
  | 0, i, _, _ => i
  | fuel + 1, i, prev, same =>
    let cur := counts i
    if cur = prev ∧ 0 < cur then
      if 2 ≤ same + 1 then i + 1
      else scrollLoopAux counts fuel (i + 1) cur (same + 1)
    else scrollLoopAux counts fuel (i + 1) cur 0

/-- The scroll loop entered with `maxIterations = 100`, `previousBookCount = 0`,
`sameCountIterations = 0`. -/
def scrollIterations (counts : Nat → Nat) : Nat :=
  scrollLoopAux counts 100 0 0 0

/-! ## Live-DOM strategy: `syncAllBooks` of the content script -/

/-- A highlight as the content script's local interface declares it. -/
structure CSHighlight where
  content : String
  note : Option String
  location : Option String
  color : Option String
deriving DecidableEq, Repr

/-- A book with its extracted highlights, content-script side. -/
structure CSBook where
  asin : String
  title : String
  author : Option String
  highlights : List CSHighlight
deriving DecidableEq, Repr

/-- The value `syncAllBooks` resolves with. -/
structure CSSyncResult where
  success : Bool
  books : List CSBook
  error : Option String
deriving DecidableEq, Repr

/-- Observable actions of one run of `syncAllBooks`, indexed by the position
of the book in the sidebar list. -/
inductive CSEvent where
  | click (book : Nat)
  | settleWait (book : Nat) (changed : Bool)
  | extract (book : Nat)
deriving DecidableEq, Repr

/-- The sidebar index an event refers to. -/
def evIndex : CSEvent → Nat
  | CSEvent.click i => i
  | CSEvent.settleWait i _ => i
  | CSEvent.extract i => i

/-- Environment for one book iteration of `syncAllBooks`: what the page
does at each suspension point.  `clickable` — a link (or `.a-declarative`
span) exists; `firstWait`, `secondWait` — whether the two
`waitForHighlightsToChange` calls observe a change before their timeout;
`extracted` — what `extractCurrentHighlights` returns once the loop
proceeds. -/
structure CSBookEnv where
  asin : String
  title : String
  author : Option String
  clickable : Bool
  firstWait : Bool
  secondWait : Bool
  extracted : List CSHighlight
deriving DecidableEq, Repr

instance : Inhabited CSBookEnv :=
  ⟨{ asin := "", title := "", author := none, clickable := false,
     firstWait := false, secondWait := false, extracted := [] }⟩

/-- The per-book loop of `syncAllBooks`: cancellation check, click, settle
wait with a single retry click on timeout, extraction, accumulation of books
with nonempty highlights.  Returns the result together with the event
trace. -/
def syncAllBooksGo (cancel : Nat → Bool) :
    List CSBookEnv → Nat → List CSBook → List CSEvent → CSSyncResult × List CSEvent
  | [], _, acc, evs => ({ success := true, books := acc, error := none }, evs)
  | e :: rest, i, acc, evs =>
    if cancel i then
      ({ success := true, books := acc, error := some "Sync cancelled by user" }, evs)
    else if e.clickable then
      let evs1 := evs ++ [CSEvent.click i, CSEvent.settleWait i e.firstWait]
      let evs2 :=
        if e.firstWait then evs1
        else evs1 ++ [CSEvent.click i, CSEvent.settleWait i e.secondWait]
      let evs3 := evs2 ++ [CSEvent.extract i]
      let acc2 :=
        if e.extracted = [] then acc
        else acc ++ [{ asin := e.asin, title := e.title, author := e.author,
                       highlights := e.extracted : CSBook }]
      syncAllBooksGo cancel rest (i + 1) acc2 evs3
    else
      syncAllBooksGo cancel rest (i + 1) acc evs

/-- `syncAllBooks`: empty sidebar is an error; otherwise run the loop from
book 0. -/
def syncAllBooks (envs : List CSBookEnv) (cancel : Nat → Bool) :
    CSSyncResult × List CSEvent :=
  if envs = [] then
    ({ success := false, books := [], error := some "No books found in sidebar" }, [])
  else syncAllBooksGo cancel envs 0 [] []

/-! ## KindleScraper: login check and per-ASIN fetch strategy -/

/-- The shape of a `fetch` response as the login check reads it. -/
structure FetchResponse where
  ok : Bool
  redirected : Bool
  url : String
deriving DecidableEq, Repr

/-- Substring test on char lists, for `String.prototype.includes`. -/
def containsChars (pat : List Char) : List Char → Bool
  | [] => startsWithChars pat []
  | c :: rest => startsWithChars pat (c :: rest) || containsChars pat rest

/-- `s.includes(pat)`. -/
def strContains (s pat : String) : Bool :=
  containsChars pat.data s.data

/-- `KindleScraper.checkLoginStatus` as a function of the response: `none`
models the fetch itself throwing (caught, yielding `false`); a redirect to a
URL containing "signin" yields `false`; otherwise `response.ok`. -/
def checkLoginStatus (resp : Option FetchResponse) : Bool :=
  match resp with
  | none => false
  | some r => if r.redirected && strContains r.url "signin" then false else r.ok

/-- One sidebar entry, as `extractBookList` returns it. -/
structure SidebarBook where
  asin : String
  title : String
  author : Option String
deriving DecidableEq, Repr

/-- A book record of `lib/kindle-scraper.ts`. -/
structure KindleBook where
  asin : String
  title : String
  author : Option String
  highlights : List KindleHighlight
deriving DecidableEq, Repr

/-- What fetching one book's notebook page does: `threw` — the request threw
(caught and the book skipped); `ok` — HTTP success; `highlights` — the
extraction result from the returned markup. -/
structure BookFetchOutcome where
  threw : Bool
  ok : Bool
  highlights : List KindleHighlight
deriving DecidableEq, Repr

/-- Environment of one `scrapeAllBooksViaFetch` run. -/
structure FetchEnv where
  loginResponse : Option FetchResponse
  sidebarBooks : List SidebarBook
  perBook : Nat → BookFetchOutcome

/-- Trace of a `scrapeAllBooksViaFetch` run: whether the main notebook page
was requested and how many per-book requests were attempted. -/
structure FetchTrace where
  mainPageFetched : Bool
  bookFetchesAttempted : Nat
deriving DecidableEq, Repr

/-- The per-book loop of `scrapeAllBooksViaFetch`: a throwing or non-ok
response skips the book; a book whose page yields no highlights is not
pushed. -/
def collectFetchedBooks (perBook : Nat → BookFetchOutcome) :
    List SidebarBook → Nat → List KindleBook
  | [], _ => []
  | b :: rest, i =>
    let o := perBook i
    (if o.threw = false ∧ o.ok = true ∧ o.highlights ≠ [] then
      [{ asin := b.asin, title := b.title, author := b.author,
         highlights := o.highlights }]
    else []) ++ collectFetchedBooks perBook rest (i + 1)

/-- `KindleScraper.scrapeAllBooksViaFetch`: the login precondition throws
`LOGIN_REQUIRED` before any page is requested; an empty sidebar yields no
books; otherwise every sidebar book is fetched in order. -/
def scrapeAllBooksViaFetch (env : FetchEnv) :
    Except String (List KindleBook) × FetchTrace :=
  if checkLoginStatus env.loginResponse = false then
    (Except.error "LOGIN_REQUIRED",
     { mainPageFetched := false, bookFetchesAttempted := 0 })
  else if env.sidebarBooks = [] then
    (Except.ok [], { mainPageFetched := true, bookFetchesAttempted := 0 })
  else
    (Except.ok (collectFetchedBooks env.perBook env.sidebarBooks 0),
     { mainPageFetched := true, bookFetchesAttempted := env.sidebarBooks.length })

/-! ## Sync Orchestrator: `syncKindleLibrary` of the background script -/

/-- The terminal result of a sync run. -/
structure SyncResult where
  success : Bool
  booksProcessed : Nat
  highlightsImported : Nat
  error : Option String
deriving DecidableEq, Repr

/-- What `syncViaContentScript` hands back when a tab responded: the books
and whether the run was cancelled (derived from the response's error text). -/
structure ContentScriptOutcome where
  books : List KindleBook
  cancelled : Bool
deriving DecidableEq, Repr

/-- Environment of one orchestrator run: the outcome of each strategy and of
the submission collaborator.  `contentScript = none` models
`syncViaContentScript` returning null (no tab responded); an `Except.error`
models the scraper call throwing. -/
structure OrchestratorEnv where
  contentScript : Option ContentScriptOutcome
  fetchOutcome : Except String (List KindleBook)
  legacyOutcome : Except String (List KindleBook)
  submitBooksProcessed : Nat
  submitHighlightsImported : Nat

/-- Trace of one orchestrator run: every write to the shared `isSyncing`
flag in order, and which strategies and the submission were invoked. -/
structure OrchTrace where
  flagWrites : List Bool
  fetchAttempted : Bool
  legacyAttempted : Bool
  submitCalled : Bool
deriving DecidableEq, Repr

/-- `books.reduce((sum, b) => sum + b.highlights.length, 0)`. -/
def totalHighlights (books : List KindleBook) : Nat :=
  (books.map (fun b => b.highlights.length)).sum

/-- `syncKindleLibrary(useContentScript)`: sets `isSyncing`, runs the
strategy cascade (Live-DOM via content script, then per-ASIN fetch on empty
non-cancelled result, then the legacy single-page scrape on manual runs),
suppresses submission on cancellation or when nothing was found, clears
`isSyncing` on every exit path.  A thrown `LOGIN_REQUIRED` or other error
from the unguarded legacy call reaches the outer catch. -/
def syncKindleLibrary (useContentScript : Bool) (env : OrchestratorEnv) :
    SyncResult × OrchTrace :=
  let entryFlags : List Bool := [true]
  let phase1 : List KindleBook × Bool :=
    if useContentScript then
      match env.contentScript with
      | some r =>
        if r.cancelled then (r.books, true)
        else if r.books.length > 0 then (r.books, false)
        else ([], false)
      | none => ([], false)
    else ([], false)
  let books1 := phase1.1
  let wasCancelled := phase1.2
  let fetchNow : Bool :=
    if useContentScript then books1.isEmpty && !wasCancelled else true
  let books2 :=
    if fetchNow then
      match env.fetchOutcome with
      | Except.ok bs => if 0 < bs.length ∧ 0 < totalHighlights bs then bs else []
      | Except.error _ => books1
    else books1
  let legacyNow : Bool := books2.isEmpty && !wasCancelled && useContentScript
  match (if legacyNow then env.legacyOutcome else Except.ok books2) with
  | Except.error e =>
    ({ success := false, booksProcessed := 0, highlightsImported := 0,
       error := some (if e = "LOGIN_REQUIRED" then "LOGIN_REQUIRED" else e) },
     { flagWrites := entryFlags ++ [false], fetchAttempted := fetchNow,
       legacyAttempted := legacyNow, submitCalled := false })
  | Except.ok books3 =>
    if wasCancelled then
      ({ success := false, booksProcessed := 0, highlightsImported := 0,
         error := some "Sync cancelled" },
       { flagWrites := entryFlags ++ [false], fetchAttempted := fetchNow,
         legacyAttempted := legacyNow, submitCalled := false })
    else if books3.isEmpty then
      ({ success := true, booksProcessed := 0, highlightsImported := 0,
         error := none },
       { flagWrites := entryFlags ++ [false], fetchAttempted := fetchNow,
         legacyAttempted := legacyNow, submitCalled := false })
    else
      ({ success := true, booksProcessed := env.submitBooksProcessed,
         highlightsImported := env.submitHighlightsImported, error := none },
       { flagWrites := entryFlags ++ [false], fetchAttempted := fetchNow,
         legacyAttempted := legacyNow, submitCalled := true })

/-- No two adjacent JS-whitespace characters. -/
def NoWsPair (a b : Char) : Prop := ¬(isJsWs a = true ∧ isJsWs b = true)

/-- The events one processed book contributes: a click and a settle wait,
doubled when the first wait times out, then an extraction. -/
def bookEvents (e : CSBookEnv) (i : Nat) : List CSEvent :=
  if e.clickable then
    (if e.firstWait then [CSEvent.click i, CSEvent.settleWait i true]
     else [CSEvent.click i, CSEvent.settleWait i false,
           CSEvent.click i, CSEvent.settleWait i e.secondWait])
    ++ [CSEvent.extract i]
  else []

/-- The full event trace of the book loop, starting at index `i`. -/
def allEvents : List CSBookEnv → Nat → List CSEvent
  | [], _ => []
  | e :: rest, i => bookEvents e i ++ allEvents rest (i + 1)

/-- The books the loop accumulates: clickable entries with nonempty
extraction results, in order. -/
def collectCSBooks : List CSBookEnv → List CSBook
  | [] => []
  | e :: rest =>
    (if e.clickable ∧ e.extracted ≠ [] then
      [{ asin := e.asin, title := e.title, author := e.author,
         highlights := e.extracted }]
    else []) ++ collectCSBooks rest

/-- Number of click events for book index `i`. -/
def clickCount : List CSEvent → Nat → Nat
  | [], _ => 0
  | CSEvent.click j :: rest, i => (if j = i then 1 else 0) + clickCount rest i
  | _ :: rest, i => clickCount rest i

/-- Number of settle-wait events for book index `i`. -/
def waitCount : List CSEvent → Nat → Nat
  | [], _ => 0
  | CSEvent.settleWait j _ :: rest, i => (if j = i then 1 else 0) + waitCount rest i
  | _ :: rest, i => waitCount rest i

/-- Consume a nonempty digit run, per the grammar of the spec. -/
def specDigits : List Char → Option (List Char)
  | [] => none
  | c :: rest => if isDigitCh c then some (rest.dropWhile isDigitCh) else none

/-- Consume `(',' digits)*` greedily; a comma not followed by a digit is
left in place. -/
def specCommaGroups : Nat → List Char → List Char
  | 0, l => l
  | fuel + 1, l =>
    match l with
    | ',' :: rest =>
      match specDigits rest with
      | some rest2 => specCommaGroups fuel rest2
      | none => l
    | _ => l

/-- Consume one comma-separated digit group of the grammar of the spec. -/
def specGroup (l : List Char) : Option (List Char) :=
  match specDigits l with
  | some rest => some (specCommaGroups rest.length rest)
  | none => none

/-- Decider for the location grammar the specification asserts: a digit
group with comma-separated digit subgroups, optionally a dash and a second
such group. -/
def specLocationGrammar (v : String) : Bool :=
  match specGroup v.data with
  | none => false
  | some [] => true
  | some ('-' :: rest2) =>
    match specGroup rest2 with
    | some [] => true
    | _ => false
  | some _ => false

/-- The shape the content-script capture group actually guarantees: a
nonempty run of digits and commas, optionally a dash and a second nonempty
run. -/
def regexLocShape (v : String) : Prop :=
  ∃ g1 g2 : List Char, g1 ≠ [] ∧ g1.all isDigitComma = true ∧
    (v.data = g1 ∨ (g2 ≠ [] ∧ g2.all isDigitComma = true ∧ v.data = g1 ++ '-' :: g2))

/-! ## Theorems -/

theorem asString_data (l : List Char) : (l.asString).data = l := rfl

theorem mem_collapseWsAux_ws : ∀ (b : Bool) (l : List Char) (c : Char),
    c ∈ collapseWsAux b l → isJsWs c = true → c = ' ' := by
  intro b l
  induction l generalizing b with
  | nil => intro c hm; simp [collapseWsAux] at hm
  | cons d rest ih =>
    intro c hm hw
    unfold collapseWsAux at hm
    by_cases hd : isJsWs d
    · rw [if_pos hd] at hm
      cases b with
      | true => exact ih true c hm hw
      | false =>
        simp at hm
        rcases hm with h | h
        · exact h
        · exact ih true c h hw
    · rw [if_neg hd] at hm
      simp at hm
      rcases hm with h | h
      · subst h; rw [hw] at hd; exact absurd rfl hd
      · exact ih false c h hw

theorem head_collapseWsAux_true : ∀ (l : List Char) (c : Char),
    (collapseWsAux true l).head? = some c → isJsWs c = false := by
  intro l
  induction l with
  | nil => intro c h; simp [collapseWsAux] at h
  | cons d rest ih =>
    intro c h
    unfold collapseWsAux at h
    by_cases hd : isJsWs d
    · rw [if_pos hd] at h
      exact ih c h
    · rw [if_neg hd] at h
      simp at h
      rw [← h]
      exact Bool.eq_false_iff.mpr hd

theorem chain_collapseWsAux : ∀ (b : Bool) (l : List Char),
    List.Chain' NoWsPair (collapseWsAux b l) := by
  intro b l
  induction l generalizing b with
  | nil => simp [collapseWsAux]
  | cons d rest ih =>
    unfold collapseWsAux
    by_cases hd : isJsWs d
    · rw [if_pos hd]
      cases b with
      | true => exact ih true
      | false =>
        simp only [Bool.false_eq_true, if_false]
        rw [List.chain'_cons']
        refine ⟨?_, ih true⟩
        intro y hy
        intro hcon
        have := head_collapseWsAux_true rest y hy
        rw [this] at hcon
        exact absurd hcon.2 (by simp)
    · rw [if_neg hd]
      rw [List.chain'_cons']
      refine ⟨?_, ih false⟩
      intro y _ hcon
      exact absurd hcon.1 hd

theorem chain_dropWhile {α : Type} {R : α → α → Prop} (p : α → Bool) :
    ∀ {l : List α}, List.Chain' R l → List.Chain' R (l.dropWhile p) := by
  intro l h
  induction l with
  | nil => exact h
  | cons c rest ih =>
    rw [List.dropWhile_cons]
    by_cases hp : p c
    · rw [if_pos hp]
      exact ih h.tail
    · rw [if_neg hp]
      exact h

theorem head_dropWhile {α : Type} (p : α → Bool) :
    ∀ {l : List α} {c : α}, (l.dropWhile p).head? = some c → p c = false := by
  intro l
  induction l with
  | nil => intro c h; simp at h
  | cons d rest ih =>
    intro c h
    rw [List.dropWhile_cons] at h
    by_cases hp : p d
    · rw [if_pos hp] at h
      exact ih h
    · rw [if_neg hp] at h
      simp at h
      rw [← h]
      exact Bool.eq_false_iff.mpr hp

theorem getLast_dropWhile {α : Type} (p : α → Bool) :
    ∀ (l : List α), l.dropWhile p = [] ∨ (l.dropWhile p).getLast? = l.getLast? := by
  intro l
  induction l with
  | nil => left; rfl
  | cons c rest ih =>
    rw [List.dropWhile_cons]
    by_cases hp : p c
    · rw [if_pos hp]
      by_cases hnil : rest.dropWhile p = []
      · left; exact hnil
      · right
        rcases ih with h | h
        · exact absurd h hnil
        · rw [h]
          cases rest with
          | nil => simp at hnil
          | cons x xs => rfl
    · rw [if_neg hp]
      right; rfl

theorem chain_reverse_noWsPair {l : List Char} (h : List.Chain' NoWsPair l) :
    List.Chain' NoWsPair l.reverse := by
  rw [List.chain'_reverse]
  exact h.imp (fun a b hab hcon => hab ⟨hcon.2, hcon.1⟩)

theorem getLast?_reverse_eq {α : Type} (l : List α) : l.reverse.getLast? = l.head? := by
  have h := List.head?_reverse l.reverse
  rw [List.reverse_reverse] at h
  exact h.symm

theorem trimChars_chain {l : List Char} (h : List.Chain' NoWsPair l) :
    List.Chain' NoWsPair (trimChars l) :=
  chain_reverse_noWsPair (chain_dropWhile isJsWs
    (chain_reverse_noWsPair (chain_dropWhile isJsWs h)))

theorem trimChars_head {l : List Char} {c : Char}
    (h : (trimChars l).head? = some c) : isJsWs c = false := by
  unfold trimChars at h
  rw [List.head?_reverse] at h
  rcases getLast_dropWhile isJsWs (l.dropWhile isJsWs).reverse with h2 | h2
  · rw [h2] at h; simp at h
  · rw [h2, getLast?_reverse_eq] at h
    exact head_dropWhile isJsWs h

theorem trimChars_getLast {l : List Char} {c : Char}
    (h : (trimChars l).getLast? = some c) : isJsWs c = false := by
  unfold trimChars at h
  rw [getLast?_reverse_eq] at h
  exact head_dropWhile isJsWs h

theorem mem_trimChars {l : List Char} {c : Char} (h : c ∈ trimChars l) : c ∈ l := by
  unfold trimChars at h
  rw [List.mem_reverse] at h
  have h2 := (List.dropWhile_sublist isJsWs).subset h
  rw [List.mem_reverse] at h2
  exact (List.dropWhile_sublist isJsWs).subset h2

theorem decode_data_eq (s : String) :
    (decodeHtmlEntities s).data = trimChars (collapseWsAux false (entityReplaced s)) := by
  unfold decodeHtmlEntities
  exact asString_data _

/-- C6: decoding the entity sample yields the plain characters with the
no-break-space entity normalized to a regular space (which, standing at the
end, is then trimmed like any end whitespace), an interior no-break space
decodes to a plain space, and for every input the decoder's output has every
whitespace character equal to a single plain space, no two adjacent
whitespace characters, and no leading or trailing whitespace. -/
theorem entity_decoding_normalization :
    decodeHtmlEntities "&amp;&lt;&gt;&quot;&#39;&nbsp;" = "&<>\"" ++ apos.toString
    ∧ decodeHtmlEntities "a&nbsp;b" = "a b"
    ∧ ∀ s : String,
        (∀ c ∈ (decodeHtmlEntities s).data, isJsWs c = true → c = ' ')
        ∧ List.Chain' NoWsPair (decodeHtmlEntities s).data
        ∧ (∀ c, (decodeHtmlEntities s).data.head? = some c → isJsWs c = false)
        ∧ (∀ c, (decodeHtmlEntities s).data.getLast? = some c → isJsWs c = false) := by
  refine ⟨rfl, rfl, ?_⟩
  intro s
  rw [decode_data_eq]
  generalize entityReplaced s = m
  refine ⟨?_, ?_, ?_, ?_⟩
  · intro c hm hw
    exact mem_collapseWsAux_ws false _ c (mem_trimChars hm) hw
  · exact trimChars_chain (chain_collapseWsAux false m)
  · intro c h; exact trimChars_head h
  · intro c h; exact trimChars_getLast h

/-- Witness for C6 at a concrete input: the decoder's output on a padded
string starts with a non-whitespace character. -/
theorem entity_decoding_normalization_witness :
    (decodeHtmlEntities " a  b ").data.head? = some 'a'
    ∧ isJsWs 'a' = false :=
  ⟨rfl, ((entity_decoding_normalization.2.2 " a  b ").2.2.1) 'a' rfl⟩

/-- C9: every run of the orchestrator writes the shared `isSyncing` flag
exactly twice: `true` on entry and `false` once on its single exit path —
success, cancellation, empty result, or error alike. -/
theorem sync_flag_cleared_once (u : Bool) (env : OrchestratorEnv) :
    ((syncKindleLibrary u env).2).flagWrites = [true, false] := by
  unfold syncKindleLibrary
  dsimp only
  repeat' split
  all_goals rfl

/-- C4: when the Live-DOM strategy reports cancellation, the orchestrator
attempts neither fallback strategy, performs no submission, and returns the
dedicated cancellation result (`success = false`, error "Sync cancelled")
rather than a generic failure message. -/
theorem cancellation_halts_pipeline (env : OrchestratorEnv) (bs : List KindleBook)
    (h : env.contentScript = some { books := bs, cancelled := true }) :
    (syncKindleLibrary true env).1 =
      { success := false, booksProcessed := 0, highlightsImported := 0,
        error := some "Sync cancelled" }
    ∧ (syncKindleLibrary true env).2.fetchAttempted = false
    ∧ (syncKindleLibrary true env).2.legacyAttempted = false
    ∧ (syncKindleLibrary true env).2.submitCalled = false := by
  unfold syncKindleLibrary
  simp [h]

/-- Witness for C4: a concrete cancelled run submits nothing and reports the
cancellation result. -/
theorem cancellation_halts_pipeline_witness :
    ({ contentScript := some { books := [], cancelled := true },
       fetchOutcome := Except.ok [], legacyOutcome := Except.ok [],
       submitBooksProcessed := 3, submitHighlightsImported := 9 } :
        OrchestratorEnv).contentScript = some { books := [], cancelled := true }
    ∧ (syncKindleLibrary true
        { contentScript := some { books := [], cancelled := true },
          fetchOutcome := Except.ok [], legacyOutcome := Except.ok [],
          submitBooksProcessed := 3, submitHighlightsImported := 9 }).1 =
        { success := false, booksProcessed := 0, highlightsImported := 0,
          error := some "Sync cancelled" } :=
  ⟨rfl,
    (cancellation_halts_pipeline
      { contentScript := some { books := [], cancelled := true },
        fetchOutcome := Except.ok [], legacyOutcome := Except.ok [],
        submitBooksProcessed := 3, submitHighlightsImported := 9 } [] rfl).1⟩

/-- C3: in a manual run, a Live-DOM result with zero books and no
cancellation makes the orchestrator attempt the per-ASIN fetch strategy; a
fetch result with zero total highlights makes it attempt the single-page
legacy strategy; and when all three strategies yield nothing the run ends
with `success = true` and zero counts, not an error. -/
theorem strategy_fallback_cascade (env : OrchestratorEnv)
    (h : env.contentScript = some { books := [], cancelled := false }) :
    (syncKindleLibrary true env).2.fetchAttempted = true
    ∧ (∀ bs, env.fetchOutcome = Except.ok bs → totalHighlights bs = 0 →
        (syncKindleLibrary true env).2.legacyAttempted = true)
    ∧ (env.fetchOutcome = Except.ok [] → env.legacyOutcome = Except.ok [] →
        (syncKindleLibrary true env).1 =
          { success := true, booksProcessed := 0, highlightsImported := 0,
            error := none }) := by
  refine ⟨?_, ?_, ?_⟩
  · unfold syncKindleLibrary
    simp [h]
    repeat' split
    all_goals rfl
  · intro bs hf ht
    unfold syncKindleLibrary
    simp [h, hf, ht]
    repeat' split
    all_goals rfl
  · intro hf hl
    unfold syncKindleLibrary
    simp [h, hf, hl, totalHighlights]

/-- Witness for C3: a concrete all-empty run yields the zero-count success
result. -/
theorem strategy_fallback_cascade_witness :
    ({ contentScript := some { books := [], cancelled := false },
       fetchOutcome := Except.ok [], legacyOutcome := Except.ok [],
       submitBooksProcessed := 0, submitHighlightsImported := 0 } :
        OrchestratorEnv).contentScript = some { books := [], cancelled := false }
    ∧ (syncKindleLibrary true
        { contentScript := some { books := [], cancelled := false },
          fetchOutcome := Except.ok [], legacyOutcome := Except.ok [],
          submitBooksProcessed := 0, submitHighlightsImported := 0 }).1 =
        { success := true, booksProcessed := 0, highlightsImported := 0,
          error := none } :=
  ⟨rfl,
    (strategy_fallback_cascade
      { contentScript := some { books := [], cancelled := false },
        fetchOutcome := Except.ok [], legacyOutcome := Except.ok [],
        submitBooksProcessed := 0, submitHighlightsImported := 0 } rfl).2.2 rfl rfl⟩

/-- C5: the login check is a deterministic function of the response shape —
a redirect whose final URL contains "signin" yields `false`; a non-redirected
OK response yields `true`; and whenever the check is `false` the per-ASIN
fetch acquisition fails with LOGIN_REQUIRED before fetching any page. -/
theorem login_check_table :
    (∀ r : FetchResponse, r.redirected = true → strContains r.url "signin" = true →
        checkLoginStatus (some r) = false)
    ∧ (∀ r : FetchResponse, r.redirected = false → r.ok = true →
        checkLoginStatus (some r) = true)
    ∧ (∀ env : FetchEnv, checkLoginStatus env.loginResponse = false →
        (scrapeAllBooksViaFetch env).1 = Except.error "LOGIN_REQUIRED"
        ∧ (scrapeAllBooksViaFetch env).2 =
            { mainPageFetched := false, bookFetchesAttempted := 0 }) := by
  refine ⟨?_, ?_, ?_⟩
  · intro r h1 h2
    simp [checkLoginStatus, h1, h2]
  · intro r h1 h2
    simp [checkLoginStatus, h1, h2]
  · intro env h
    simp [scrapeAllBooksViaFetch, h]

/-- Witness for C5: the concrete sign-in redirect from the test suite is
rejected. -/
theorem login_check_table_witness :
    strContains "https://www.amazon.com/ap/signin?x" "signin" = true
    ∧ checkLoginStatus
        (some { ok := true, redirected := true,
                url := "https://www.amazon.com/ap/signin?x" }) = false :=
  ⟨rfl,
    login_check_table.1
      { ok := true, redirected := true, url := "https://www.amazon.com/ap/signin?x" }
      rfl rfl⟩

/-- C10: when the login-check request itself throws, `checkLoginStatus`
returns `false` instead of propagating, so the per-ASIN fetch acquisition
surfaces a network outage as LOGIN_REQUIRED, with no scraping attempted. -/
theorem login_network_error_as_login_failure (env : FetchEnv)
    (h : env.loginResponse = none) :
    checkLoginStatus env.loginResponse = false
    ∧ (scrapeAllBooksViaFetch env).1 = Except.error "LOGIN_REQUIRED"
    ∧ (scrapeAllBooksViaFetch env).2.mainPageFetched = false
    ∧ (scrapeAllBooksViaFetch env).2.bookFetchesAttempted = 0 := by
  have hc : checkLoginStatus env.loginResponse = false := by
    rw [h]; rfl
  refine ⟨hc, ?_, ?_, ?_⟩ <;> simp [scrapeAllBooksViaFetch, hc]

/-- Witness for C10 at a concrete environment whose login request throws. -/
theorem login_network_error_as_login_failure_witness :
    ({ loginResponse := none, sidebarBooks := [],
       perBook := fun _ => { threw := true, ok := false, highlights := [] } } :
        FetchEnv).loginResponse = none
    ∧ (scrapeAllBooksViaFetch
        { loginResponse := none, sidebarBooks := [],
          perBook := fun _ => { threw := true, ok := false, highlights := [] } }).1 =
        Except.error "LOGIN_REQUIRED" :=
  ⟨rfl,
    (login_network_error_as_login_failure
      { loginResponse := none, sidebarBooks := [],
        perBook := fun _ => { threw := true, ok := false, highlights := [] } }
      rfl).2.1⟩

/-- The scroll loop never runs past its remaining fuel. -/
theorem scrollLoopAux_le (counts : Nat → Nat) :
    ∀ fuel i prev same, scrollLoopAux counts fuel i prev same ≤ i + fuel := by
  intro fuel
  induction fuel with
  | zero => intro i prev same; simp [scrollLoopAux]
  | succ n ih =>
    intro i prev same
    unfold scrollLoopAux
    dsimp only
    by_cases hc : counts i = prev ∧ 0 < counts i
    · rw [if_pos hc]
      by_cases hs : 2 ≤ same + 1
      · rw [if_pos hs]; omega
      · rw [if_neg hs]
        have := ih (i + 1) (counts i) (same + 1)
        omega
    · rw [if_neg hc]
      have := ih (i + 1) (counts i) 0
      omega

/-- If three consecutive observations starting at `k` report the same
non-zero count, the loop stops no later than iteration `k + 2` (having begun
at most `k + 3` iterations), provided enough fuel remains and the tracked
`previousBookCount` is consistent with the observation sequence. -/
theorem scrollLoopAux_early (counts : Nat → Nat) (k : Nat)
    (h1 : counts k = counts (k + 1)) (h2 : counts (k + 1) = counts (k + 2))
    (h3 : 0 < counts k) :
    ∀ fuel i prev same, k + 3 ≤ i + fuel →
      (i ≤ k + 1 → (1 ≤ i → prev = counts (i - 1)) →
        scrollLoopAux counts fuel i prev same ≤ k + 3)
      ∧ (i = k + 2 → prev = counts (k + 1) → 1 ≤ same →
        scrollLoopAux counts fuel i prev same ≤ k + 3) := by
  intro fuel
  induction fuel with
  | zero =>
    intro i prev same hfuel
    constructor
    · intro hi _; omega
    · intro hi _ _; omega
  | succ n ih =>
    intro i prev same hfuel
    constructor
    · intro hi hInv
      unfold scrollLoopAux
      dsimp only
      by_cases hc : counts i = prev ∧ 0 < counts i
      · rw [if_pos hc]
        by_cases hs : 2 ≤ same + 1
        · rw [if_pos hs]; omega
        · rw [if_neg hs]
          by_cases hik : i = k + 1
          · subst hik
            exact (ih (k + 1 + 1) (counts (k + 1)) (same + 1) (by omega)).2 rfl rfl
              (by omega)
          · have hi1 : i + 1 ≤ k + 1 := by omega
            exact (ih (i + 1) (counts i) (same + 1) (by omega)).1 hi1 (by intro _; simp)
      · rw [if_neg hc]
        by_cases hik : i = k + 1
        · subst hik
          exfalso
          apply hc
          constructor
          · rw [hInv (by omega)]
            simpa using h1.symm
          · omega
        · have hi1 : i + 1 ≤ k + 1 := by omega
          exact (ih (i + 1) (counts i) 0 (by omega)).1 hi1 (by intro _; simp)
    · intro hi hprev hsame
      subst hi
      unfold scrollLoopAux
      dsimp only
      rw [if_pos ⟨by rw [hprev]; exact h2.symm, by omega⟩]
      rw [if_pos (by omega)]

/-- Counterexample to C7 as stated: on this count sequence, iterations 0 and
1 observe the same non-zero count (the count is unchanged and non-zero across
two consecutive iterations), yet the loop does not exit early — it runs all
100 iterations, because the implementation demands `sameCountIterations >= 2`,
which needs a third equal observation. -/
theorem scroll_pair_stability_cex :
    (fun i => if i < 2 then 5 else i + 6 : Nat → Nat) 0 =
      (fun i => if i < 2 then 5 else i + 6 : Nat → Nat) 1
    ∧ 0 < (fun i => if i < 2 then 5 else i + 6 : Nat → Nat) 0
    ∧ scrollIterations (fun i => if i < 2 then 5 else i + 6) = 100 :=
  ⟨rfl, by decide, rfl⟩

/-- C7 (amended): the scroll loop always performs at most the 100-iteration
ceiling, and it exits early as soon as the observed book count is unchanged
and non-zero across two consecutive *stability checks* — that is, once three
consecutive observations report the same non-zero count. -/
theorem scroll_loop_termination (counts : Nat → Nat) :
    scrollIterations counts ≤ 100
    ∧ ∀ k, counts k = counts (k + 1) → counts (k + 1) = counts (k + 2) →
        0 < counts k → k + 2 < 100 → scrollIterations counts ≤ k + 3 := by
  constructor
  · simpa using scrollLoopAux_le counts 100 0 0 0
  · intro k h1 h2 h3 hk
    exact (scrollLoopAux_early counts k h1 h2 h3 100 0 0 0 (by omega)).1 (by omega)
      (by omega)

/-- Witness for C7: a constantly-stable count sequence exits after 3
iterations. -/
theorem scroll_loop_termination_witness :
    (fun _ => 5 : Nat → Nat) 0 = (fun _ => 5 : Nat → Nat) 1
    ∧ scrollIterations (fun _ => 5) ≤ 3 :=
  ⟨rfl, (scroll_loop_termination (fun _ => 5)).2 0 rfl rfl (by decide) (by decide)⟩

theorem clickCount_append (a b : List CSEvent) (i : Nat) :
    clickCount (a ++ b) i = clickCount a i + clickCount b i := by
  induction a with
  | nil => simp [clickCount]
  | cons ev rest ih =>
    cases ev <;> simp [clickCount, ih, Nat.add_assoc]

theorem waitCount_append (a b : List CSEvent) (i : Nat) :
    waitCount (a ++ b) i = waitCount a i + waitCount b i := by
  induction a with
  | nil => simp [waitCount]
  | cons ev rest ih =>
    cases ev <;> simp [waitCount, ih, Nat.add_assoc]

theorem clickCount_bookEvents_self (e : CSBookEnv) (i : Nat) :
    clickCount (bookEvents e i) i =
      (if e.clickable then (if e.firstWait then 1 else 2) else 0) := by
  by_cases hc : e.clickable <;> by_cases hf : e.firstWait <;>
    simp [bookEvents, clickCount, hc, hf]

theorem waitCount_bookEvents_self (e : CSBookEnv) (i : Nat) :
    waitCount (bookEvents e i) i =
      (if e.clickable then (if e.firstWait then 1 else 2) else 0) := by
  by_cases hc : e.clickable <;> by_cases hf : e.firstWait <;>
    simp [bookEvents, waitCount, hc, hf]

theorem clickCount_bookEvents_ne (e : CSBookEnv) (i j : Nat) (h : j ≠ i) :
    clickCount (bookEvents e i) j = 0 := by
  have hij : ¬(i = j) := by omega
  by_cases hc : e.clickable <;> by_cases hf : e.firstWait <;>
    simp [bookEvents, clickCount, hc, hf, hij]

theorem waitCount_bookEvents_ne (e : CSBookEnv) (i j : Nat) (h : j ≠ i) :
    waitCount (bookEvents e i) j = 0 := by
  have hij : ¬(i = j) := by omega
  by_cases hc : e.clickable <;> by_cases hf : e.firstWait <;>
    simp [bookEvents, waitCount, hc, hf, hij]

theorem clickCount_allEvents_lt (l : List CSBookEnv) :
    ∀ j i, i < j → clickCount (allEvents l j) i = 0 := by
  induction l with
  | nil => intro j i _; simp [allEvents, clickCount]
  | cons e rest ih =>
    intro j i hij
    rw [allEvents, clickCount_append, clickCount_bookEvents_ne e j i (by omega),
      ih (j + 1) i (by omega)]

theorem waitCount_allEvents_lt (l : List CSBookEnv) :
    ∀ j i, i < j → waitCount (allEvents l j) i = 0 := by
  induction l with
  | nil => intro j i _; simp [allEvents, waitCount]
  | cons e rest ih =>
    intro j i hij
    rw [allEvents, waitCount_append, waitCount_bookEvents_ne e j i (by omega),
      ih (j + 1) i (by omega)]

theorem clickCount_allEvents (l : List CSBookEnv) :
    ∀ i k, k < l.length →
      clickCount (allEvents l i) (i + k) =
        (if (l.getD k default).clickable then
          (if (l.getD k default).firstWait then 1 else 2) else 0) := by
  induction l with
  | nil => intro i k hk; simp at hk
  | cons e rest ih =>
    intro i k hk
    rw [allEvents, clickCount_append]
    cases k with
    | zero =>
      rw [Nat.add_zero, clickCount_bookEvents_self,
        clickCount_allEvents_lt rest (i + 1) i (by omega)]
      simp [List.getD]
    | succ k =>
      rw [clickCount_bookEvents_ne e i (i + (k + 1)) (by omega)]
      have h2 : i + (k + 1) = (i + 1) + k := by omega
      rw [h2, ih (i + 1) k (by simpa using hk)]
      simp [List.getD]

theorem waitCount_allEvents (l : List CSBookEnv) :
    ∀ i k, k < l.length →
      waitCount (allEvents l i) (i + k) =
        (if (l.getD k default).clickable then
          (if (l.getD k default).firstWait then 1 else 2) else 0) := by
  induction l with
  | nil => intro i k hk; simp at hk
  | cons e rest ih =>
    intro i k hk
    rw [allEvents, waitCount_append]
    cases k with
    | zero =>
      rw [Nat.add_zero, waitCount_bookEvents_self,
        waitCount_allEvents_lt rest (i + 1) i (by omega)]
      simp [List.getD]
    | succ k =>
      rw [waitCount_bookEvents_ne e i (i + (k + 1)) (by omega)]
      have h2 : i + (k + 1) = (i + 1) + k := by omega
      rw [h2, ih (i + 1) k (by simpa using hk)]
      simp [List.getD]

theorem extract_mem_allEvents (l : List CSBookEnv) :
    ∀ i k, k < l.length → (l.getD k default).clickable = true →
      CSEvent.extract (i + k) ∈ allEvents l i := by
  induction l with
  | nil => intro i k hk; simp at hk
  | cons e rest ih =>
    intro i k hk hc
    rw [allEvents]
    cases k with
    | zero =>
      rw [Nat.add_zero]
      apply List.mem_append_left
      simp [List.getD] at hc
      by_cases hf : e.firstWait <;> simp [bookEvents, hc, hf]
    | succ k =>
      apply List.mem_append_right
      have h2 : i + (k + 1) = (i + 1) + k := by omega
      rw [h2]
      exact ih (i + 1) k (by simpa using hk) (by simpa [List.getD] using hc)

theorem syncAllBooksGo_noCancel (cancel : Nat → Bool) (hc : ∀ j, cancel j = false) :
    ∀ (l : List CSBookEnv) (i : Nat) (acc : List CSBook) (evs : List CSEvent),
      syncAllBooksGo cancel l i acc evs =
        ({ success := true, books := acc ++ collectCSBooks l, error := none },
         evs ++ allEvents l i) := by
  intro l
  induction l with
  | nil => intro i acc evs; simp [syncAllBooksGo, collectCSBooks, allEvents]
  | cons e rest ih =>
    intro i acc evs
    rw [syncAllBooksGo]
    rw [hc i]
    simp only [Bool.false_eq_true, if_false]
    by_cases hcl : e.clickable
    · rw [if_pos hcl]
      by_cases hf : e.firstWait
      · rw [ih]
        by_cases he : e.extracted = [] <;>
          simp [hf, he, collectCSBooks, allEvents, bookEvents, hcl]
      · rw [ih]
        by_cases he : e.extracted = [] <;>
          simp [hf, he, collectCSBooks, allEvents, bookEvents, hcl]
    · rw [if_neg hcl]
      rw [ih]
      simp [collectCSBooks, allEvents, bookEvents, hcl]

/-- C8: in a non-cancelled run, every clickable book is clicked once when the
first settle wait observes a change, and exactly twice (one retry) when it
times out, with a settle wait after each click; extraction happens for the
book regardless, and the run ends successfully with no error even if both
waits time out. -/
theorem settle_timeout_single_retry (envs : List CSBookEnv) (cancel : Nat → Bool) (k : Nat)
    (hcancel : ∀ j, cancel j = false) (hk : k < envs.length)
    (hclick : (envs.getD k default).clickable = true) :
    clickCount (syncAllBooks envs cancel).2 k =
      (if (envs.getD k default).firstWait then 1 else 2)
    ∧ waitCount (syncAllBooks envs cancel).2 k =
      (if (envs.getD k default).firstWait then 1 else 2)
    ∧ CSEvent.extract k ∈ (syncAllBooks envs cancel).2
    ∧ (syncAllBooks envs cancel).1.success = true
    ∧ (syncAllBooks envs cancel).1.error = none := by
  have hne : envs ≠ [] := by
    intro h; rw [h] at hk; simp at hk
  have hgo : syncAllBooks envs cancel =
      ({ success := true, books := [] ++ collectCSBooks envs, error := none },
       [] ++ allEvents envs 0) := by
    rw [syncAllBooks, if_neg hne, syncAllBooksGo_noCancel cancel hcancel]
  rw [hgo]
  refine ⟨?_, ?_, ?_, rfl, rfl⟩
  · have h2 := clickCount_allEvents envs 0 k hk
    rw [Nat.zero_add, hclick, if_pos rfl] at h2
    exact h2
  · have h2 := waitCount_allEvents envs 0 k hk
    rw [Nat.zero_add, hclick, if_pos rfl] at h2
    exact h2
  · have := extract_mem_allEvents envs 0 k hk hclick
    rw [Nat.zero_add] at this
    simpa using this

/-- Witness for C8: one clickable book whose first settle wait times out is
clicked exactly twice. -/
theorem settle_timeout_single_retry_witness :
    (0 : Nat) < ([⟨"B0", "T", none, true, false, false, []⟩] :
        List CSBookEnv).length
    ∧ clickCount (syncAllBooks [⟨"B0", "T", none, true, false, false, []⟩]
        (fun _ => false)).2 0 = 2 :=
  ⟨by decide,
    (settle_timeout_single_retry [⟨"B0", "T", none, true, false, false, []⟩]
      (fun _ => false) 0 (fun _ => rfl) (by decide) rfl).1⟩

/-- Counterexample to C1 as stated: markup with one highlight marker whose
content decodes to the empty string, no header markers and two note markers
has all three marker counts distinct (1, 0, 2), yet the extractor produces 0
records, not 1 — empty-content highlight markers are discarded. -/
theorem fieldextractor_marker_count_cex :
    (extractHighlightsFromHtml "Unknown Title" none [""] [] ["a", "b"]).length = 0
    ∧ ([""] : List String).length = 1
    ∧ ([] : List String).length = 0
    ∧ (["a", "b"] : List String).length = 2 :=
  ⟨rfl, rfl, rfl, rfl⟩

/-- C1 (amended): the extractor produces exactly as many records as there
are highlight markers with non-empty decoded content, and the i-th record
takes its note from index i of the note-marker list and its location/color
from index i of the header-marker list — null when that index is absent —
never from a different index. -/
theorem fieldextractor_count_alignment (bookTitle : String) (bookAuthor : Option String)
    (rawHs rawHdrs rawNs : List String) :
    (extractHighlightsFromHtml bookTitle bookAuthor rawHs rawHdrs rawNs).length =
      ((rawHs.map (fun s => decodeHtmlEntities (jsTrim s))).filter
        (fun s => s ≠ "")).length
    ∧ ∀ i h,
        (extractHighlightsFromHtml bookTitle bookAuthor rawHs rawHdrs rawNs).get? i =
          some h →
        h.content = ((rawHs.map (fun s => decodeHtmlEntities (jsTrim s))).filter
            (fun s => s ≠ "")).getD i ""
        ∧ h.note = emptyToNull
            ((rawNs.map (fun s => decodeHtmlEntities (jsTrim s))).getD i "")
        ∧ h.location = parseLocationHtml
            ((rawHdrs.map (fun s => decodeHtmlEntities (jsTrim s))).getD i "")
        ∧ h.color = parseColor
            ((rawHdrs.map (fun s => decodeHtmlEntities (jsTrim s))).getD i "")
        ∧ (rawHdrs.length ≤ i → h.location = none ∧ h.color = none)
        ∧ (rawNs.length ≤ i → h.note = none) := by
  constructor
  · rw [extractHighlightsFromHtml]
    rw [List.length_map, List.length_range]
  · intro i h hget
    rw [extractHighlightsFromHtml] at hget
    rw [List.get?_map] at hget
    by_cases hi : i < ((rawHs.map (fun s => decodeHtmlEntities (jsTrim s))).filter
        (fun s => s ≠ "")).length
    · rw [List.get?_range hi] at hget
      simp only [Option.map_some] at hget
      have hh := hget.symm
      injection hh with hh2
      subst hh2
      refine ⟨rfl, rfl, rfl, rfl, ?_, ?_⟩
      · intro hle
        have hd : ((rawHdrs.map (fun s => decodeHtmlEntities (jsTrim s))).getD i "") = "" :=
          List.getD_eq_default _ _ (by simpa using hle)
        constructor
        · show parseLocationHtml ((rawHdrs.map (fun s => decodeHtmlEntities (jsTrim s))).getD i "") = none
          rw [hd]; rfl
        · show parseColor ((rawHdrs.map (fun s => decodeHtmlEntities (jsTrim s))).getD i "") = none
          rw [hd]; rfl
      · intro hle
        have hd : ((rawNs.map (fun s => decodeHtmlEntities (jsTrim s))).getD i "") = "" :=
          List.getD_eq_default _ _ (by simpa using hle)
        show emptyToNull ((rawNs.map (fun s => decodeHtmlEntities (jsTrim s))).getD i "") = none
        rw [hd]; rfl
    · rw [List.get?_len_le (by simpa using Nat.le_of_not_lt hi)] at hget
      simp at hget

/-- Witness for C1 at concrete marker lists with one highlight, one header
and no notes. -/
theorem fieldextractor_count_alignment_witness :
    (extractHighlightsFromHtml "T" none ["x"] ["Yellow highlight"] []).get? 0 =
      some { bookTitle := "T", bookAuthor := none, content := "x", note := none,
             location := none, color := some "Yellow" }
    ∧ ({ bookTitle := "T", bookAuthor := none, content := "x", note := none,
         location := none, color := some "Yellow" } : KindleHighlight).note =
        emptyToNull ((([] : List String).map
          (fun s => decodeHtmlEntities (jsTrim s))).getD 0 "") :=
  ⟨rfl,
    ((fieldextractor_count_alignment "T" none ["x"] ["Yellow highlight"] []).2 0
      { bookTitle := "T", bookAuthor := none, content := "x", note := none,
        location := none, color := some "Yellow" } rfl).2.1⟩

theorem takeWhile_all {α : Type} (p : α → Bool) (l : List α) :
    (l.takeWhile p).all p = true := by
  induction l with
  | nil => rfl
  | cons c rest ih =>
    rw [List.takeWhile_cons]
    by_cases hp : p c
    · simp [hp, ih]
    · simp [hp]

theorem locAttempt_shape (ar : Bool) (lit l : List Char) (v : String)
    (h : locAttempt isDigitComma ar lit l = some v) : regexLocShape v := by
  unfold locAttempt at h
  split at h
  · exact absurd h (by simp)
  · rename_i rest hrest
    by_cases hg : (rest.dropWhile isJsWs).takeWhile isDigitComma = []
    · rw [if_pos hg] at h
      exact absurd h (by simp)
    · rw [if_neg hg] at h
      by_cases har : ar = true
      · rw [if_pos har] at h
        split at h
        · rename_i rest4 hrest4
          by_cases hg2 : rest4.takeWhile isDigitComma = []
          · rw [if_pos hg2] at h
            injection h with hv
            exact ⟨_, [], hg, takeWhile_all _ _, Or.inl (by rw [← hv]; rfl)⟩
          · rw [if_neg hg2] at h
            injection h with hv
            exact ⟨_, _, hg, takeWhile_all _ _,
              Or.inr ⟨hg2, takeWhile_all _ _, by rw [← hv]; rfl⟩⟩
        · injection h with hv
          exact ⟨_, [], hg, takeWhile_all _ _, Or.inl (by rw [← hv]; rfl)⟩
      · rw [if_neg har] at h
        injection h with hv
        exact ⟨_, [], hg, takeWhile_all _ _, Or.inl (by rw [← hv]; rfl)⟩

theorem locSearch_shape (ar : Bool) (lit : List Char) :
    ∀ (l : List Char) (v : String),
      locSearch isDigitComma ar lit l = some v → regexLocShape v := by
  intro l
  induction l with
  | nil =>
    intro v h
    rw [locSearch] at h
    exact locAttempt_shape ar lit [] v h
  | cons c rest ih =>
    intro v h
    rw [locSearch] at h
    cases ha : locAttempt isDigitComma ar lit (c :: rest) with
    | some w =>
      rw [ha] at h
      injection h with hv
      subst hv
      exact locAttempt_shape ar lit (c :: rest) w ha
    | none =>
      rw [ha] at h
      exact ih v h

/-- Counterexample to C2 as stated: on the header "Location: ,," the
content-script extractor stores the location ",,", which is not a digit
group or digit-group range in the sense of the grammar the spec asserts. -/
theorem location_grammar_cex :
    parseLocationCS "Location: ,," = some ",,"
    ∧ specLocationGrammar ",," = false :=
  ⟨rfl, rfl⟩

/-- C2 (amended): the content-script location parse yields "1,234-1,240" on
the sample header and "Yellow" for its color parse on "Yellow highlight"; a
header matching neither pattern yields null for both; every stored location
value is a nonempty run of digits and commas, optionally a dash and a second
such run (not necessarily a well-formed comma-separated digit grouping); and
the fetch-scraper variant of the pattern, which permits no commas, yields
"1" on the same sample header. -/
theorem header_parsing :
    parseLocationCS "Location: 1,234-1,240" = some "1,234-1,240"
    ∧ parseColor "Yellow highlight" = some "Yellow"
    ∧ parseLocationCS "Chapter 3 summary" = none
    ∧ parseColor "Chapter 3 summary" = none
    ∧ parseLocationHtml "Location: 1,234-1,240" = some "1"
    ∧ ∀ h v, parseLocationCS h = some v → regexLocShape v := by
  refine ⟨rfl, rfl, rfl, rfl, rfl, ?_⟩
  intro h v hp
  unfold parseLocationCS at hp
  cases hs : locSearch isDigitComma true ("Location:".data) h.data with
  | some w =>
    rw [hs] at hp
    injection hp with hv
    subst hv
    exact locSearch_shape true _ _ w hs
  | none =>
    rw [hs] at hp
    exact locSearch_shape false _ _ v hp

/-- Witness for C2 at the concrete header "Location: 77-80". -/
theorem header_parsing_witness :
    parseLocationCS "Location: 77-80" = some "77-80"
    ∧ regexLocShape "77-80" :=
  ⟨rfl, header_parsing.2.2.2.2.2 "Location: 77-80" "77-80" rfl⟩

end Lektr
